import Mathlib

/-!
Shallow embedding of the miniprint v5g protocol codec (src/v5g.rs, src/main.rs).

Machine integers are modelled as `Nat`; a Rust `u8` value is a `Nat` that the
surrounding code keeps below 256 (hypotheses state this where a property needs
it).  Fallible buffer indexing is modelled with `List.getElem?`, so the decoder
returns `Option (Except ParseError NotifyResponse)`: `none` models an
out-of-bounds slice access (a Rust panic), `some` a normal return.
-/

namespace Miniprint

/-- The 256-entry CRC-8 lookup table `CRC_TABLE` from src/v5g.rs. -/
def CRC_TABLE : List Nat := [
  0x00, 0x07, 0x0e, 0x09, 0x1c, 0x1b, 0x12, 0x15, 0x38, 0x3f, 0x36, 0x31, 0x24, 0x23, 0x2a, 0x2d,
  0x70, 0x77, 0x7e, 0x79, 0x6c, 0x6b, 0x62, 0x65, 0x48, 0x4f, 0x46, 0x41, 0x54, 0x53, 0x5a, 0x5d,
  0xe0, 0xe7, 0xee, 0xe9, 0xfc, 0xfb, 0xf2, 0xf5, 0xd8, 0xdf, 0xd6, 0xd1, 0xc4, 0xc3, 0xca, 0xcd,
  0x90, 0x97, 0x9e, 0x99, 0x8c, 0x8b, 0x82, 0x85, 0xa8, 0xaf, 0xa6, 0xa1, 0xb4, 0xb3, 0xba, 0xbd,
  0xc7, 0xc0, 0xc9, 0xce, 0xdb, 0xdc, 0xd5, 0xd2, 0xff, 0xf8, 0xf1, 0xf6, 0xe3, 0xe4, 0xed, 0xea,
  0xb7, 0xb0, 0xb9, 0xbe, 0xab, 0xac, 0xa5, 0xa2, 0x8f, 0x88, 0x81, 0x86, 0x93, 0x94, 0x9d, 0x9a,
  0x27, 0x20, 0x29, 0x2e, 0x3b, 0x3c, 0x35, 0x32, 0x1f, 0x18, 0x11, 0x16, 0x03, 0x04, 0x0d, 0x0a,
  0x57, 0x50, 0x59, 0x5e, 0x4b, 0x4c, 0x45, 0x42, 0x6f, 0x68, 0x61, 0x66, 0x73, 0x74, 0x7d, 0x7a,
  0x89, 0x8e, 0x87, 0x80, 0x95, 0x92, 0x9b, 0x9c, 0xb1, 0xb6, 0xbf, 0xb8, 0xad, 0xaa, 0xa3, 0xa4,
  0xf9, 0xfe, 0xf7, 0xf0, 0xe5, 0xe2, 0xeb, 0xec, 0xc1, 0xc6, 0xcf, 0xc8, 0xdd, 0xda, 0xd3, 0xd4,
  0x69, 0x6e, 0x67, 0x60, 0x75, 0x72, 0x7b, 0x7c, 0x51, 0x56, 0x5f, 0x58, 0x4d, 0x4a, 0x43, 0x44,
  0x19, 0x1e, 0x17, 0x10, 0x05, 0x02, 0x0b, 0x0c, 0x21, 0x26, 0x2f, 0x28, 0x3d, 0x3a, 0x33, 0x34,
  0x4e, 0x49, 0x40, 0x47, 0x52, 0x55, 0x5c, 0x5b, 0x76, 0x71, 0x78, 0x7f, 0x6a, 0x6d, 0x64, 0x63,
  0x3e, 0x39, 0x30, 0x37, 0x22, 0x25, 0x2c, 0x2b, 0x06, 0x01, 0x08, 0x0f, 0x1a, 0x1d, 0x14, 0x13,
  0xae, 0xa9, 0xa0, 0xa7, 0xb2, 0xb5, 0xbc, 0xbb, 0x96, 0x91, 0x98, 0x9f, 0x8a, 0x8d, 0x84, 0x83,
  0xde, 0xd9, 0xd0, 0xd7, 0xc2, 0xc5, 0xcc, 0xcb, 0xe6, 0xe1, 0xe8, 0xef, 0xfa, 0xfd, 0xf4, 0xf3]

/-- `fn crc8(arr: &[u8]) -> u8`: fold the table lookup `CRC_TABLE[crc ^ x]`
over the bytes, starting from 0.  In Rust the index `crc ^ x` is a `u8` hence
always in range; here `getD _ 0` performs the in-range lookup. -/
def crc8 (arr : List Nat) : Nat :=
  arr.foldl (fun crc x => CRC_TABLE.getD (crc ^^^ x) 0) 0

/-- `TX_SIZE`: link-layer chunk size. -/
def TX_SIZE : Nat := 60

/-- `HORIZ_RESOLUTION`: 384 dots per row. -/
def HORIZ_RESOLUTION : Nat := 384

/-- `enum CommandId` from src/v5g.rs. -/
inductive CommandId where
  | Paper
  | GetDeviceState
  | Quality
  | Energy
  | Lattice
  | PrintSpeed
  | PrintMode
  | BitmapData
deriving DecidableEq

/-- The `#[repr(u8)]` discriminant of each `CommandId`. -/
def CommandId.code : CommandId → Nat
  | .Paper => 0xa1
  | .GetDeviceState => 0xa3
  | .Quality => 0xa4
  | .Energy => 0xaf
  | .Lattice => 0xa6
  | .PrintSpeed => 0xbd
  | .PrintMode => 0xbe
  | .BitmapData => 0xa2

/-- `enum PrintMode { Image = 0, Text = 1 }`. -/
inductive PrintMode where
  | Image
  | Text
deriving DecidableEq

/-- The `#[repr(u8)]` discriminant of each `PrintMode`. -/
def PrintMode.code : PrintMode → Nat
  | .Image => 0
  | .Text => 1

/-- `struct CmdPacket { id: u8, data: Vec<u8> }`. -/
structure CmdPacket where
  id : Nat
  data : List Nat
deriving DecidableEq

/-- `CmdPacket::new(id, data)`. -/
def CmdPacket.new (id : CommandId) (data : List Nat) : CmdPacket :=
  ⟨id.code, data⟩

/-- `CmdPacket::to_vec`: magic `0x51 0x78`, opcode, direction 0, payload
length little-endian (`dlen & 0xff`, `(dlen >> 8) & 0xff`), payload, CRC of
the payload, terminator `0xff`. -/
def CmdPacket.to_vec (p : CmdPacket) : List Nat :=
  [0x51, 0x78, p.id, 0x00,
   p.data.length &&& 0xff, (p.data.length >>> 8) &&& 0xff]
  ++ p.data
  ++ [crc8 p.data, 0xff]

/-- `CmdPacket::quality(level)`.  The Rust source asserts `1 <= level <= 5`
before building the payload `[0x31 + level]` (a `u8` sum; `% 256` models the
wrap that the assertion makes unreachable). -/
def CmdPacket.quality (level : Nat) : CmdPacket :=
  CmdPacket.new CommandId.Quality [(0x31 + level) % 256]

/-- `CmdPacket::energy(energy: u16)`: little-endian bytes, no range check. -/
def CmdPacket.energy (energy : Nat) : CmdPacket :=
  CmdPacket.new CommandId.Energy [energy &&& 0xff, (energy >>> 8) &&& 0xff]

/-- `CmdPacket::print_speed(speed: u8)`. -/
def CmdPacket.print_speed (speed : Nat) : CmdPacket :=
  CmdPacket.new CommandId.PrintSpeed [speed]

/-- `CmdPacket::print_mode(mode)`. -/
def CmdPacket.print_mode (mode : PrintMode) : CmdPacket :=
  CmdPacket.new CommandId.PrintMode [mode.code]

/-- `CmdPacket::lattice_start()`: fixed 11-byte calibration payload. -/
def CmdPacket.lattice_start : CmdPacket :=
  CmdPacket.new CommandId.Lattice
    [0xaa, 0x55, 0x17, 0x38, 0x44, 0x5f, 0x5f, 0x5f, 0x44, 0x38, 0x2c]

/-- `CmdPacket::lattice_end()`: fixed 11-byte calibration payload. -/
def CmdPacket.lattice_end : CmdPacket :=
  CmdPacket.new CommandId.Lattice
    [0xaa, 0x55, 0x17, 0x00, 0x00, 0x00, 0x00, 0x00, 0x00, 0x00, 0x17]

/-- `enum ParseError` from src/v5g.rs. -/
inductive ParseError where
  | BadMagic
  | BadTerminator
  | Checksum
  | UnknownType
  | InvalidLength
  | BadDirection (dir : Nat)
deriving DecidableEq

/-- `enum NotifyResponse` from src/v5g.rs. -/
inductive NotifyResponse where
  | DeviceState (data : List Nat)
deriving DecidableEq

/-- `NotifyResponse::parse(buf)`.  Every Rust slice index `buf[i]` is
modelled as `buf[i]?`, bound in the `Option` monad, so `none` models the
out-of-bounds panic; checks appear in the source's order (short-circuit of
`buf[0] != 0x51 || buf[1] != 0x78` included).  `dlen` is the declared
length `buf[4] | buf[5] << 8`; `buf.length - 2` is `Nat` subtraction,
matching the `usize` subtraction for the buffers of length ≥ 8 that the
claims quantify over. -/
def parse (buf : List Nat) : Option (Except ParseError NotifyResponse) :=
  (buf[0]?).bind fun b0 =>
  if b0 ≠ 0x51 then some (Except.error ParseError.BadMagic) else
  (buf[1]?).bind fun b1 =>
  if b1 ≠ 0x78 then some (Except.error ParseError.BadMagic) else
  (buf[2]?).bind fun id =>
  (buf[3]?).bind fun pktdir =>
  if pktdir ≠ 1 then some (Except.error (ParseError.BadDirection pktdir)) else
  (buf[4]?).bind fun lo =>
  (buf[5]?).bind fun hi =>
  let dlen := lo ||| (hi <<< 8)
  if 6 + dlen > buf.length - 2 then some (Except.error ParseError.InvalidLength) else
  let data := (buf.drop 6).take dlen
  (buf[6 + dlen]?).bind fun promised_crc =>
  if promised_crc ≠ crc8 data then some (Except.error ParseError.Checksum) else
  (buf[7 + dlen]?).bind fun term =>
  if term ≠ 0xff then some (Except.error ParseError.BadTerminator) else
  if id = 0xa3 then some (Except.ok (NotifyResponse.DeviceState data))
  else some (Except.error ParseError.UnknownType)

/-- The decode validator as the spec words it, for the refinement claim on
validation order: the checks run in the fixed fail-fast order magic,
direction, length, checksum, terminator, opcode, the first failing check
determining the error.  `declared` is the little-endian declared length. -/
def decodeOrdered (buf : List Nat) : Except ParseError NotifyResponse :=
  if ¬ (buf.getD 0 0 = 0x51 ∧ buf.getD 1 0 = 0x78) then
    Except.error ParseError.BadMagic
  else if buf.getD 3 0 ≠ 1 then
    Except.error (ParseError.BadDirection (buf.getD 3 0))
  else
    let declared := buf.getD 4 0 + 256 * buf.getD 5 0
    if ¬ (declared + 8 ≤ buf.length) then
      Except.error ParseError.InvalidLength
    else if crc8 ((buf.drop 6).take declared) ≠ buf.getD (6 + declared) 0 then
      Except.error ParseError.Checksum
    else if buf.getD (7 + declared) 0 ≠ 0xff then
      Except.error ParseError.BadTerminator
    else if buf.getD 2 0 ≠ 0xa3 then
      Except.error ParseError.UnknownType
    else
      Except.ok (NotifyResponse.DeviceState ((buf.drop 6).take declared))

/-! ### Arithmetic helpers for the byte-level length encoding -/

theorem and_255_eq_mod (n : Nat) : n &&& 255 = n % 256 := by
  have h := Nat.and_pow_two_sub_one_eq_mod n 8
  norm_num at h
  exact h

theorem shiftRight_8_eq_div (n : Nat) : n >>> 8 = n / 256 := by
  simp [Nat.shiftRight_eq_div_pow]

/-- Recomposing a little-endian byte split gives the original number. -/
theorem lo_or_hi (n : Nat) : (n % 256) ||| ((n / 256) <<< 8) = n := by
  apply Nat.eq_of_testBit_eq
  intro j
  have h256 : (256 : Nat) = 2 ^ 8 := rfl
  rw [h256, Nat.testBit_or, Nat.testBit_shiftLeft, Nat.testBit_mod_two_pow]
  have hdiv : n / 256 = n >>> 8 := (shiftRight_8_eq_div n).symm
  rcases lt_or_le j 8 with hj | hj
  · have h1 : ¬ (8 ≤ j) := by omega
    simp [hj, h1]
  · have h1 : ¬ (j < 8) := by omega
    have h2 : 8 + (j - 8) = j := by omega
    simp [hj, h1, hdiv, Nat.testBit_shiftRight, h2]

/-- The two length bytes that `to_vec` emits, for a length below `2^16`. -/
theorem length_bytes (n : Nat) (h : n < 65536) :
    n &&& 0xff = n % 256 ∧ (n >>> 8) &&& 0xff = n / 256 := by
  refine ⟨and_255_eq_mod n, ?_⟩
  rw [shiftRight_8_eq_div, and_255_eq_mod]
  exact Nat.mod_eq_of_lt (by omega)

/-- Little-endian recomposition of two bytes. -/
theorem byte_or (lo hi : Nat) (h : lo < 256) :
    lo ||| (hi <<< 8) = lo + 256 * hi := by
  have h1 : (lo + 256 * hi) % 256 = lo := by
    rw [Nat.add_mul_mod_self_left, Nat.mod_eq_of_lt h]
  have h2 : (lo + 256 * hi) / 256 = hi := by
    rw [Nat.add_mul_div_left _ _ (by norm_num : 0 < 256), Nat.div_eq_of_lt h]
    omega
  have h3 := lo_or_hi (lo + 256 * hi)
  rw [h1, h2] at h3
  exact h3

/-- Indexing past a six-element prefix. -/
theorem getElem?_cons6 (b0 b1 b2 b3 b4 b5 : Nat) (rest : List Nat) (k : Nat) :
    (b0 :: b1 :: b2 :: b3 :: b4 :: b5 :: rest)[6 + k]? = rest[k]? := by
  have h : 6 + k = k + 6 := by omega
  rw [h]
  simp [List.getElem?_cons_succ]

/-! ### C1: frame layout of the encoder -/

/-- C1: for every command (opcode `id`, payload `p`) with `len p < 65536`,
`to_vec` produces exactly
`[0x51, 0x78, id, 0x00, len % 256, len / 256] ++ p ++ [crc8 p, 0xff]`,
of total length `len p + 8`, with the checksum computed over the payload
only; and the four golden vectors from the spec hold. -/
theorem to_vec_frame_layout (id : CommandId) (p : List Nat)
    (h : p.length < 65536) :
    (CmdPacket.new id p).to_vec
      = [0x51, 0x78, id.code, 0x00, p.length % 256, p.length / 256]
        ++ p ++ [crc8 p, 0xff] ∧
    (CmdPacket.new id p).to_vec.length = p.length + 8 ∧
    (CmdPacket.new CommandId.Paper [0x30, 0x00]).to_vec
      = [0x51, 0x78, 0xa1, 0x00, 0x02, 0x00, 0x30, 0x00, 0xf9, 0xff] ∧
    (CmdPacket.new CommandId.Paper [0x48, 0x00]).to_vec
      = [0x51, 0x78, 0xa1, 0x00, 0x02, 0x00, 0x48, 0x00, 0xf3, 0xff] ∧
    (CmdPacket.print_mode PrintMode.Image).to_vec
      = [0x51, 0x78, 0xbe, 0x00, 0x01, 0x00, 0x00, 0x00, 0xff] ∧
    (CmdPacket.print_mode PrintMode.Text).to_vec
      = [0x51, 0x78, 0xbe, 0x00, 0x01, 0x00, 0x01, 0x07, 0xff] := by
  obtain ⟨hlo, hhi⟩ := length_bytes p.length h
  refine ⟨?_, ?_, by decide, by decide, by decide, by decide⟩
  · simp [CmdPacket.to_vec, CmdPacket.new, hlo, hhi]
  · simp [CmdPacket.to_vec, CmdPacket.new]

/-- Witness for C1 at the concrete command (Paper, [0x30, 0x00]). -/
theorem to_vec_frame_layout_witness :
    (CmdPacket.new CommandId.Paper [0x30, 0x00]).to_vec
      = [0x51, 0x78, CommandId.Paper.code, 0x00,
         ([0x30, 0x00] : List Nat).length % 256,
         ([0x30, 0x00] : List Nat).length / 256]
        ++ [0x30, 0x00] ++ [crc8 [0x30, 0x00], 0xff] ∧
    (CmdPacket.new CommandId.Paper [0x30, 0x00]).to_vec.length
      = ([0x30, 0x00] : List Nat).length + 8 :=
  ⟨(to_vec_frame_layout CommandId.Paper [0x30, 0x00] (by decide)).1,
   (to_vec_frame_layout CommandId.Paper [0x30, 0x00] (by decide)).2.1⟩

/-! ### C7: the command catalog constructors -/

/-- C7: under the precondition `1 ≤ level ≤ 5`, `quality level` has opcode
0xa4 and payload `[0x31 + level]`; `energy v` has opcode 0xaf and the
little-endian bytes of the `u16` `v`; `print_speed` has opcode 0xbd and the
byte verbatim; `print_mode` maps Image to `[0]` and Text to `[1]` under
opcode 0xbe; the two lattice constructors carry their fixed 11-byte payloads
under opcode 0xa6; the paper-feed command is opcode 0xa1 with payload
`[0x30, 0x00]`; and the `CommandId` discriminants are as listed. -/
theorem command_constructors (level v s : Nat)
    (h1 : 1 ≤ level) (h2 : level ≤ 5) (hv : v < 65536) :
    CmdPacket.quality level = ⟨0xa4, [0x31 + level]⟩ ∧
    CmdPacket.energy v = ⟨0xaf, [v % 256, v / 256]⟩ ∧
    CmdPacket.print_speed s = ⟨0xbd, [s]⟩ ∧
    CmdPacket.print_mode PrintMode.Image = ⟨0xbe, [0]⟩ ∧
    CmdPacket.print_mode PrintMode.Text = ⟨0xbe, [1]⟩ ∧
    CmdPacket.lattice_start
      = ⟨0xa6, [0xaa, 0x55, 0x17, 0x38, 0x44, 0x5f, 0x5f, 0x5f, 0x44, 0x38, 0x2c]⟩ ∧
    CmdPacket.lattice_start.data.length = 11 ∧
    CmdPacket.lattice_end
      = ⟨0xa6, [0xaa, 0x55, 0x17, 0x00, 0x00, 0x00, 0x00, 0x00, 0x00, 0x00, 0x17]⟩ ∧
    CmdPacket.lattice_end.data.length = 11 ∧
    CmdPacket.new CommandId.Paper [0x30, 0x00] = ⟨0xa1, [0x30, 0x00]⟩ ∧
    CommandId.Paper.code = 0xa1 ∧ CommandId.BitmapData.code = 0xa2 ∧
    CommandId.GetDeviceState.code = 0xa3 ∧ CommandId.Quality.code = 0xa4 ∧
    CommandId.Lattice.code = 0xa6 ∧ CommandId.Energy.code = 0xaf ∧
    CommandId.PrintSpeed.code = 0xbd ∧ CommandId.PrintMode.code = 0xbe := by
  obtain ⟨hlo, hhi⟩ := length_bytes v hv
  refine ⟨?_, ?_, rfl, by decide, by decide, by decide, by decide,
    by decide, by decide, by decide, by decide, by decide, by decide,
    by decide, by decide, by decide, by decide, by decide⟩
  · have hq : (0x31 + level) % 256 = 0x31 + level := Nat.mod_eq_of_lt (by omega)
    simp [CmdPacket.quality, CmdPacket.new, CommandId.code, hq]
  · simp [CmdPacket.energy, CmdPacket.new, CommandId.code, hlo, hhi]

/-- Witness for C7 at level = 5, energy = 10000, speed = 10. -/
theorem command_constructors_witness :
    CmdPacket.quality 5 = ⟨0xa4, [0x31 + 5]⟩ ∧
    CmdPacket.energy 10000 = ⟨0xaf, [10000 % 256, 10000 / 256]⟩ ∧
    CmdPacket.print_speed 10 = ⟨0xbd, [10]⟩ :=
  ⟨(command_constructors 5 10000 10 (by decide) (by decide) (by decide)).1,
   (command_constructors 5 10000 10 (by decide) (by decide) (by decide)).2.1,
   (command_constructors 5 10000 10 (by decide) (by decide) (by decide)).2.2.1⟩

/-! ### C9: checksum properties (corrected) -/

/-- C9 counterexample: the claim asserts
`crc8 (p1 ++ p2) ≠ crc8 p1` for every `p1` and non-empty `p2`; it fails at
`p1 = []`, `p2 = [0x00]`, where both sides are 0. -/
theorem crc8_append_counterexample :
    ([0x00] : List Nat) ≠ [] ∧ crc8 ([] ++ [0x00]) = crc8 [] := by
  constructor
  · decide
  · decide

/-- C9 (amended): `crc8` is a deterministic pure function; `crc8 [] = 0`;
appending a non-empty suffix does not always change the checksum
(appending `[0x00]` to `[]` preserves it), though it can
(appending `[0x01]` to `[]` changes it). -/
theorem crc8_props :
    (∀ p : List Nat, crc8 p = crc8 p) ∧
    crc8 [] = 0 ∧
    crc8 ([] ++ [0x00]) = crc8 [] ∧
    crc8 ([] ++ [0x01]) ≠ crc8 [] :=
  ⟨fun _ => rfl, by decide, by decide, by decide⟩

/-! ### C2, C4, C5: the decoder -/

/-- Shared refinement lemma: on byte buffers of length ≥ 8 the decoder
returns normally and agrees with the spec-ordered validator. -/
theorem parse_eq_decodeOrdered (buf : List Nat) (h8 : 8 ≤ buf.length)
    (hb : ∀ b ∈ buf, b < 256) :
    parse buf = some (decodeOrdered buf) := by
  rcases buf with _ | ⟨b0, buf⟩
  · simp at h8
  rcases buf with _ | ⟨b1, buf⟩
  · simp at h8
  rcases buf with _ | ⟨b2, buf⟩
  · simp at h8
  rcases buf with _ | ⟨b3, buf⟩
  · simp at h8
  rcases buf with _ | ⟨b4, buf⟩
  · simp at h8
  rcases buf with _ | ⟨b5, rest⟩
  · simp at h8
  simp only [List.length_cons] at h8
  have hrest : 2 ≤ rest.length := by omega
  have hb4 : b4 < 256 := hb b4 (by simp)
  have hdlen : b4 ||| (b5 <<< 8) = b4 + 256 * b5 := byte_or b4 b5 hb4
  have h7 : ∀ k : Nat, 7 + k = 6 + (k + 1) := by omega
  simp only [parse, decodeOrdered, List.getElem?_cons_zero, List.getElem?_cons_succ,
    List.getD_eq_getElem?_getD, List.length_cons, List.drop_succ_cons, List.drop_zero,
    Option.some_bind, hdlen, h7, getElem?_cons6]
  by_cases h0 : b0 = 0x51
  · by_cases h1 : b1 = 0x78
    · by_cases h3 : b3 = 1
      · by_cases hlen : b4 + 256 * b5 + 8 ≤ rest.length + 6
        · have hlen' : ¬ (6 + (b4 + 256 * b5) > rest.length + 6 - 2) := by omega
          have hDlt : b4 + 256 * b5 < rest.length := by omega
          have hD1lt : b4 + 256 * b5 + 1 < rest.length := by omega
          have hc : rest[b4 + 256 * b5]? = some rest[b4 + 256 * b5] :=
            List.getElem?_eq_getElem hDlt
          have ht : rest[b4 + 256 * b5 + 1]? = some rest[b4 + 256 * b5 + 1] :=
            List.getElem?_eq_getElem hD1lt
          by_cases hcrc : crc8 (rest.take (b4 + 256 * b5)) = rest[b4 + 256 * b5]
          · by_cases hterm : rest[b4 + 256 * b5 + 1] = 0xff
            · by_cases hid : b2 = 0xa3
              · simp [h0, h1, h3, hlen, hlen', hc, ht, hcrc, hterm, hid]; omega
              · simp [h0, h1, h3, hlen, hlen', hc, ht, hcrc, hterm, hid]; omega
            · simp [h0, h1, h3, hlen, hlen', hc, ht, hcrc, hterm]; omega
          · simp [h0, h1, h3, hlen, hlen', hc, ht, hcrc, Ne.symm hcrc]; omega
        · have hlen' : 6 + (b4 + 256 * b5) > rest.length + 6 - 2 := by omega
          simp [h0, h1, h3, hlen, hlen']; omega
      · simp [h0, h1, h3]
    · simp [h0, h1]
  · simp [h0]

/-- C4: on every byte buffer of length ≥ 8, the decoder agrees with the
spec-ordered fail-fast validator `decodeOrdered` (checks in the fixed order
magic, direction, length, checksum, terminator, opcode; the first failing
check determines the error); in particular the concrete buffer
`[0x00, 0x78, 0xa3, 0x01, 0x00, 0x00, 0x00, 0x00]`, which has bad magic and
a bad terminator, returns `BadMagic`. -/
theorem parse_validation_order (buf : List Nat) (h8 : 8 ≤ buf.length)
    (hb : ∀ b ∈ buf, b < 256) :
    parse buf = some (decodeOrdered buf) ∧
    parse [0x00, 0x78, 0xa3, 0x01, 0x00, 0x00, 0x00, 0x00]
      = some (Except.error ParseError.BadMagic) ∧
    decodeOrdered [0x00, 0x78, 0xa3, 0x01, 0x00, 0x00, 0x00, 0x00]
      = Except.error ParseError.BadMagic :=
  ⟨parse_eq_decodeOrdered buf h8 hb, rfl, rfl⟩

/-- Witness for C4 at the notify frame from the repository's own test. -/
theorem parse_validation_order_witness :
    parse [0x51, 0x78, 0xa3, 0x01, 0x03, 0x00, 0x00, 0x01, 0x5f, 0x8f, 0xff]
      = some (decodeOrdered
          [0x51, 0x78, 0xa3, 0x01, 0x03, 0x00, 0x00, 0x01, 0x5f, 0x8f, 0xff]) :=
  (parse_validation_order
    [0x51, 0x78, 0xa3, 0x01, 0x03, 0x00, 0x00, 0x01, 0x5f, 0x8f, 0xff]
    (by decide) (by decide)).1

/-- C5: on every input buffer of length ≥ 8 the decoder reads no index out
of bounds and returns a value — a `NotifyResponse` or a `ParseError`.
(`parse` returns `none` exactly when an access is out of bounds, so
`parse buf = some r` states both halves.) -/
theorem parse_total_of_min_length (buf : List Nat) (h8 : 8 ≤ buf.length) :
    ∃ r : Except ParseError NotifyResponse, parse buf = some r := by
  rcases buf with _ | ⟨b0, buf⟩
  · simp at h8
  rcases buf with _ | ⟨b1, buf⟩
  · simp at h8
  rcases buf with _ | ⟨b2, buf⟩
  · simp at h8
  rcases buf with _ | ⟨b3, buf⟩
  · simp at h8
  rcases buf with _ | ⟨b4, buf⟩
  · simp at h8
  rcases buf with _ | ⟨b5, rest⟩
  · simp at h8
  simp only [List.length_cons] at h8
  have h7 : ∀ k : Nat, 7 + k = 6 + (k + 1) := by omega
  simp only [parse, List.getElem?_cons_zero, List.getElem?_cons_succ,
    List.length_cons, List.drop_succ_cons, List.drop_zero, Option.some_bind,
    h7, getElem?_cons6]
  split
  · exact ⟨_, rfl⟩
  split
  · exact ⟨_, rfl⟩
  split
  · exact ⟨_, rfl⟩
  split
  · exact ⟨_, rfl⟩
  next hlen =>
    have h1 : (b4 ||| b5 <<< 8) < rest.length := by omega
    have h2 : (b4 ||| b5 <<< 8) + 1 < rest.length := by omega
    rw [List.getElem?_eq_getElem h1, Option.some_bind]
    split
    · exact ⟨_, rfl⟩
    rw [List.getElem?_eq_getElem h2, Option.some_bind]
    split
    · exact ⟨_, rfl⟩
    split
    · exact ⟨_, rfl⟩
    · exact ⟨_, rfl⟩

/-- Witness for C5 at the all-zero 8-byte buffer. -/
theorem parse_total_of_min_length_witness :
    ∃ r : Except ParseError NotifyResponse,
      parse (List.replicate 8 0) = some r :=
  parse_total_of_min_length (List.replicate 8 0) (by decide)

/-- C2: encoding any payload `p` with `len p < 65536` under
`GetDeviceState`, flipping the direction byte at offset 3 to 1, and decoding
succeeds and recovers exactly `DeviceState p`. -/
theorem parse_to_vec_roundtrip (p : List Nat) (h : p.length < 65536) :
    parse (((CmdPacket.new CommandId.GetDeviceState p).to_vec).set 3 1)
      = some (Except.ok (NotifyResponse.DeviceState p)) := by
  obtain ⟨hlo, hhi⟩ := length_bytes p.length h
  have hset : ((CmdPacket.new CommandId.GetDeviceState p).to_vec).set 3 1
      = 0x51 :: 0x78 :: 0xa3 :: 1 :: (p.length % 256) :: (p.length / 256)
        :: (p ++ [crc8 p, 0xff]) := by
    simp [CmdPacket.to_vec, CmdPacket.new, CommandId.code, hlo, hhi]
  rw [hset]
  have hdlen : (p.length % 256) ||| ((p.length / 256) <<< 8) = p.length :=
    lo_or_hi p.length
  have h7 : ∀ k : Nat, 7 + k = 6 + (k + 1) := by omega
  simp only [parse, List.getElem?_cons_zero, List.getElem?_cons_succ,
    List.length_cons, List.drop_succ_cons, List.drop_zero, Option.some_bind,
    hdlen, h7, getElem?_cons6]
  have hlen : ¬ (6 + p.length > (p ++ [crc8 p, 0xff]).length + 6 - 2) := by
    simp [List.length_append]
    omega
  have hdata : (p ++ [crc8 p, 0xff]).take p.length = p := List.take_left p _
  have hcrc : (p ++ [crc8 p, 0xff])[p.length]? = some (crc8 p) := by
    rw [List.getElem?_append_right (le_refl _)]
    simp
  have hterm : (p ++ [crc8 p, 0xff])[p.length + 1]? = some 0xff := by
    rw [List.getElem?_append_right (by omega)]
    have hi1 : p.length + 1 - p.length = 1 := by omega
    rw [hi1]
    simp
  simp [hlen, hdata, hcrc, hterm]
  omega

/-- Witness for C2 at the payload `[0x00, 0x01]`. -/
theorem parse_to_vec_roundtrip_witness :
    parse (((CmdPacket.new CommandId.GetDeviceState [0x00, 0x01]).to_vec).set 3 1)
      = some (Except.ok (NotifyResponse.DeviceState [0x00, 0x01])) :=
  parse_to_vec_roundtrip [0x00, 0x01] (by decide)

/-! ### Image rasterizer and print orchestrator (src/v5g.rs `Driver::print`) -/

/-- One iteration of the inner loop of `Driver::print`:
`row_buf[i/8] >>= 1; row_buf[i/8] |= if px < 127 { 0b10000000 } else { 0 }`. -/
def rasterStep (px : Nat → Nat) (buf : List Nat) (i : Nat) : List Nat :=
  buf.set (i / 8)
    ((buf.getD (i / 8) 0 >>> 1) ||| (if px i < 127 then 0b10000000 else 0))

/-- The per-row loop `for i in 0..img.width()` of `Driver::print`, starting
from `[0u8; HORIZ_RESOLUTION / 8]`; `px i` is the intensity of pixel `i` of
the row. -/
def rasterRow (w : Nat) (px : Nat → Nat) : List Nat :=
  (List.range w).foldl (rasterStep px) (List.replicate (HORIZ_RESOLUTION / 8) 0)

/-- A grayscale raster: `pixel i j` is `img.get_pixel(i, j).0[0]`. -/
structure GrayImage where
  width : Nat
  height : Nat
  pixel : Nat → Nat → Nat

/-- `struct PrintSettings` (every field is ignored by `Driver::print`). -/
structure PrintSettings where
  energy : Nat
  print_mode : PrintMode
  print_speed : Nat
  feeds_after : Nat
  quality : Nat

/-- `PrintSettings::default()`. -/
def PrintSettings.default : PrintSettings :=
  ⟨10000, PrintMode.Image, 10, 2, 5⟩

/-- The bitmap row `Driver::print` builds for image row `j`. -/
def Driver.rowFor (img : GrayImage) (j : Nat) : List Nat :=
  rasterRow img.width (fun i => img.pixel i j)

/-- The packet list `pkts` that `Driver::print` builds, with the pushes in
source order: quality, lattice start, energy, print mode, print speed, one
bitmap row per image row, paper feed twice, lattice end, device state. -/
def Driver.printCmds (img : GrayImage) (_settings : PrintSettings) : List CmdPacket :=
  ((List.range img.height).foldl
    (fun cmds j =>
      cmds ++ [CmdPacket.new CommandId.BitmapData (Driver.rowFor img j)])
    [CmdPacket.quality 5, CmdPacket.lattice_start,
     CmdPacket.energy 10000, CmdPacket.print_mode PrintMode.Image,
     CmdPacket.print_speed 10])
  ++ [CmdPacket.new CommandId.Paper [0x30, 0x00],
      CmdPacket.new CommandId.Paper [0x30, 0x00],
      CmdPacket.lattice_end,
      CmdPacket.new CommandId.GetDeviceState [0x00]]

/-- The outbound byte stream of `Driver::print`: the concatenation of the
encoded packets (it is then cut into `TX_SIZE` chunks for the transport). -/
def Driver.printStream (img : GrayImage) (settings : PrintSettings) : List Nat :=
  (Driver.printCmds img settings).foldl (fun buf pkt => buf ++ pkt.to_vec) []

/-- Pushing `f x` for each `x` is an append of a map. -/
theorem foldl_push_eq_append {α β : Type} (l : List α) (f : α → β)
    (init : List β) :
    l.foldl (fun acc x => acc ++ [f x]) init = init ++ l.map f := by
  induction l generalizing init with
  | nil => simp
  | cons a l ih => simp [ih]

/-! ### C6 and C10: the orchestrator command sequence -/

/-- C6: the orchestrator's outbound command list is exactly: quality,
lattice start, energy, print mode, print speed, one bitmap-row command per
raster row from top to bottom, the paper-feed command twice, lattice end,
and the device-state query — nothing else, in this order. -/
theorem printCmds_sequence (img : GrayImage) (s : PrintSettings) :
    Driver.printCmds img s
      = [CmdPacket.quality 5, CmdPacket.lattice_start,
         CmdPacket.energy 10000, CmdPacket.print_mode PrintMode.Image,
         CmdPacket.print_speed 10]
        ++ (List.range img.height).map
            (fun j => CmdPacket.new CommandId.BitmapData (Driver.rowFor img j))
        ++ [CmdPacket.new CommandId.Paper [0x30, 0x00],
            CmdPacket.new CommandId.Paper [0x30, 0x00],
            CmdPacket.lattice_end,
            CmdPacket.new CommandId.GetDeviceState [0x00]] := by
  simp [Driver.printCmds, foldl_push_eq_append]

/-- C10: the outbound byte stream (and the command list) of `Driver::print`
is independent of the `PrintSettings` argument: the emitted quality, energy,
print-mode and print-speed values are hardcoded and no settings field is
read. -/
theorem printStream_settings_independent (img : GrayImage)
    (s1 s2 : PrintSettings) :
    Driver.printStream img s1 = Driver.printStream img s2 ∧
    Driver.printCmds img s1 = Driver.printCmds img s2 :=
  ⟨rfl, rfl⟩

/-! ### C3 and C8: rasterization -/

theorem rasterRow_succ (w : Nat) (px : Nat → Nat) :
    rasterRow (w + 1) px = rasterStep px (rasterRow w px) w := by
  simp [rasterRow, List.range_succ]

/-- Master invariant of the raster loop: the row buffer always has 48
bytes, each below 256, and after processing a row of width `w` the bits of
byte `b` hold the thresholded pixels `8b, 8b+1, ...` at positions
`8 - t, 8 - t + 1, ...` where `t = min 8 (w - 8b)` pixels landed in the
byte — the `>>= 1` / `|= 0x80` loop fills bytes from the top down. -/
theorem rasterRow_spec (w : Nat) (px : Nat → Nat) (hw : w ≤ 384) :
    (rasterRow w px).length = 48 ∧
    ∀ b, b < 48 →
      (rasterRow w px).getD b 0 < 256 ∧
      ∀ j, j < 8 →
        ((rasterRow w px).getD b 0).testBit j
          = (decide (8 - min 8 (w - 8 * b) ≤ j)
             && decide (px (8 * b + (j - (8 - min 8 (w - 8 * b)))) < 127)) := by
  induction w with
  | zero =>
    refine ⟨by simp [rasterRow, HORIZ_RESOLUTION], ?_⟩
    intro b hb
    have h0 : (rasterRow 0 px).getD b 0 = 0 := by
      simp only [rasterRow, List.range_zero, List.foldl_nil,
        List.getD_eq_getElem?_getD, List.getElem?_replicate]
      split
      · rfl
      · rfl
    refine ⟨by omega, ?_⟩
    intro j hj
    have hfalse : ¬ (8 - min 8 (0 - 8 * b) ≤ j) := by omega
    rw [h0]
    simp only [Nat.zero_testBit]
    rw [eq_comm, Bool.and_eq_false_iff]
    left
    simpa using hfalse
  | succ m ih =>
    obtain ⟨ihlen, ihb⟩ := ih (by omega)
    have hb0 : m / 8 < 48 := by omega
    obtain ⟨ihvlt, ihbit⟩ := ihb (m / 8) hb0
    rw [rasterRow_succ]
    have hlen : (rasterStep px (rasterRow m px) m).length = 48 := by
      simp [rasterStep, ihlen]
    refine ⟨hlen, ?_⟩
    intro b hb
    by_cases hbe : b = m / 8
    · subst hbe
      have hget : (rasterStep px (rasterRow m px) m).getD (m / 8) 0
          = (((rasterRow m px).getD (m / 8) 0) >>> 1)
            ||| (if px m < 127 then 128 else 0) := by
        simp [rasterStep, List.getD_eq_getElem?_getD,
          List.getElem?_set_self (show m / 8 < (rasterRow m px).length by omega)]
      have hdiv2 : (rasterRow m px).getD (m / 8) 0 >>> 1
          = (rasterRow m px).getD (m / 8) 0 / 2 :=
        Nat.shiftRight_eq_div_pow _ 1
      have hv' : (rasterStep px (rasterRow m px) m).getD (m / 8) 0 < 256 := by
        rw [hget]
        have h2 : (if px m < 127 then (128 : Nat) else 0) < 256 := by
          split <;> omega
        calc ((rasterRow m px).getD (m / 8) 0) >>> 1
              ||| (if px m < 127 then 128 else 0)
            < 2 ^ 8 := Nat.or_lt_two_pow (by omega) (by omega)
          _ = 256 := by norm_num
      refine ⟨hv', ?_⟩
      intro j hj
      rw [hget]
      have hT : min 8 (m + 1 - 8 * (m / 8)) = m % 8 + 1 := by omega
      have hT0 : min 8 (m - 8 * (m / 8)) = m % 8 := by omega
      rw [Nat.testBit_or, Nat.testBit_shiftRight, hT]
      have hdd : (if px m < 127 then (128 : Nat) else 0).testBit j
          = (decide (px m < 127) && decide (j = 7)) := by
        by_cases hpx : px m < 127
        · rw [if_pos hpx, show (128 : Nat) = 2 ^ 7 by norm_num,
            Nat.testBit_two_pow]
          simp [hpx, eq_comm]
        · simp [hpx]
      rw [hdd]
      by_cases hj7 : j = 7
      · subst hj7
        have hbit8 : ((rasterRow m px).getD (m / 8) 0).testBit 8 = false :=
          Nat.testBit_lt_two_pow (by omega)
        have hc2 : 8 * (m / 8) + (7 - (8 - (m % 8 + 1))) = m := by omega
        rw [show (1 : Nat) + 7 = 8 by omega, hbit8, Bool.false_or,
          show decide ((7 : Nat) = 7) = true from rfl, Bool.and_true,
          decide_eq_true (show 8 - (m % 8 + 1) ≤ 7 by omega), Bool.true_and,
          hc2]
      · have h1j : 1 + j < 8 := by omega
        have hbitv := ihbit (1 + j) h1j
        rw [hbitv, hT0]
        have hjne : decide (j = 7) = false := by simp [hj7]
        rw [hjne, Bool.and_false, Bool.or_false]
        by_cases hc : 8 - (m % 8 + 1) ≤ j
        · rw [show 8 * (m / 8) + (1 + j - (8 - m % 8))
                = 8 * (m / 8) + (j - (8 - (m % 8 + 1))) by omega]
          congr 1
          exact decide_eq_decide.mpr (by omega)
        · rw [decide_eq_false (show ¬ (8 - m % 8 ≤ 1 + j) by omega),
            decide_eq_false hc, Bool.false_and, Bool.false_and]
    · have hget : (rasterStep px (rasterRow m px) m).getD b 0
          = (rasterRow m px).getD b 0 := by
        simp [rasterStep, List.getD_eq_getElem?_getD,
          List.getElem?_set_ne (show m / 8 ≠ b from fun h => hbe h.symm)]
      have hsame : min 8 (m + 1 - 8 * b) = min 8 (m - 8 * b) := by omega
      obtain ⟨hvlt, hbit⟩ := ihb b hb
      rw [hget, hsame]
      exact ⟨hvlt, hbit⟩

/-- A byte below 256 is determined by its eight bits. -/
theorem byte_eq_of_testBit {v u : Nat} (hv : v < 256) (hu : u < 256)
    (h : ∀ j, j < 8 → v.testBit j = u.testBit j) : v = u := by
  apply Nat.eq_of_testBit_eq
  intro j
  rcases lt_or_le j 8 with hj | hj
  · exact h j hj
  · have h2 : (256 : Nat) ≤ 2 ^ j :=
      calc (256 : Nat) = 2 ^ 8 := by norm_num
        _ ≤ 2 ^ j := Nat.pow_le_pow_right (by norm_num) hj
    rw [Nat.testBit_lt_two_pow (by omega), Nat.testBit_lt_two_pow (by omega)]

theorem getElem?_eq_some_getD {l : List Nat} {n : Nat} (h : n < l.length) :
    l[n]? = some (l.getD n 0) := by
  rw [List.getD_eq_getElem?_getD, List.getElem?_eq_getElem h]
  rfl

set_option maxRecDepth 40000

/-- C3 counterexample: the claim asserts MSB-first packing — bit
`7 - i % 8` of byte `i / 8`, so in a width-384 row whose only dark pixel is
at column 0, bit 7 of byte 0 would be set and byte 0 would be
`0b10000000`.  The code's `>>= 1` / `|= 0x80` loop instead leaves that
pixel at bit 0: bit 7 is clear and byte 0 is `0b00000001`. -/
theorem rasterRow_msb_counterexample :
    ((fun k : Nat => if k = 0 then (0 : Nat) else 255) 0) < 127 ∧
    ((rasterRow 384 (fun k => if k = 0 then 0 else 255)).getD (0 / 8) 0).testBit
        (7 - 0 % 8) = false ∧
    (rasterRow 384 (fun k => if k = 0 then 0 else 255)).getD 0 0
      ≠ 0b10000000 := by
  refine ⟨by norm_num, by decide, by decide⟩

/-- C3 (amended): for every row of width `w ≤ 384` and pixel `i < w`, the
payload has bit `(i % 8) + (8 - min 8 (w - 8 * (i / 8)))` of byte `i / 8`
set iff pixel `i`'s intensity is below 127 — LSB-first within each fully
covered byte (for `8 ∣ w` the position is `i % 8`), with a partially
covered final byte shifted toward the MSB end; in particular a width-384
row whose only dark pixel is at column 0 yields payload byte 0 =
`0b00000001` with all other bytes 0, and a width-384 row whose only dark
pixel is at column 383 yields payload byte 47 = `0b10000000`. -/
theorem rasterRow_bit_lsb (w : Nat) (px : Nat → Nat) (i : Nat)
    (hw : w ≤ 384) (hi : i < w) :
    (((rasterRow w px).getD (i / 8) 0).testBit
        (i % 8 + (8 - min 8 (w - 8 * (i / 8))))
      = decide (px i < 127)) ∧
    rasterRow 384 (fun k => if k = 0 then 0 else 255)
      = 0x01 :: List.replicate 47 0 ∧
    rasterRow 384 (fun k => if k = 383 then 0 else 255)
      = List.replicate 47 0 ++ [0x80] := by
  refine ⟨?_, by decide, by decide⟩
  obtain ⟨hlen, hb⟩ := rasterRow_spec w px hw
  have hb8 : i / 8 < 48 := by omega
  obtain ⟨hvlt, hbit⟩ := hb (i / 8) hb8
  have hTge : i % 8 + 1 ≤ min 8 (w - 8 * (i / 8)) := by omega
  have hj : i % 8 + (8 - min 8 (w - 8 * (i / 8))) < 8 := by omega
  rw [hbit _ hj,
    decide_eq_true (show 8 - min 8 (w - 8 * (i / 8))
      ≤ i % 8 + (8 - min 8 (w - 8 * (i / 8))) by omega), Bool.true_and,
    show 8 * (i / 8) + (i % 8 + (8 - min 8 (w - 8 * (i / 8)))
      - (8 - min 8 (w - 8 * (i / 8)))) = i by omega]

/-- Witness for C3 (amended) at `w = 384`, the all-dark row, `i = 0`. -/
theorem rasterRow_bit_lsb_witness :
    ((rasterRow 384 (fun _ => (0 : Nat))).getD (0 / 8) 0).testBit
        (0 % 8 + (8 - min 8 (384 - 8 * (0 / 8))))
      = decide ((fun _ => (0 : Nat)) 0 < 127) :=
  (rasterRow_bit_lsb 384 (fun _ => 0) 0 (by omega) (by omega)).1

/-- C8: the bitmap-row payload is always exactly 48 bytes; an all-white
width-384 row gives 48 zero bytes; an all-black width-384 row gives 48
bytes of 0xFF; and for a row of any width `w`, every byte beyond the bytes
covered by the `w` pixels stays 0. -/
theorem rasterRow_extremes (w : Nat) (px pxW pxB : Nat → Nat) (hw : w ≤ 384)
    (hW : ∀ i, i < 384 → 127 ≤ pxW i) (hB : ∀ i, i < 384 → pxB i < 127) :
    (rasterRow w px).length = 48 ∧
    rasterRow 384 pxW = List.replicate 48 0 ∧
    rasterRow 384 pxB = List.replicate 48 255 ∧
    (∀ b, b < 48 → w ≤ 8 * b → (rasterRow w px).getD b 0 = 0) := by
  obtain ⟨hlenW, hbW⟩ := rasterRow_spec 384 pxW (by omega)
  obtain ⟨hlenB, hbB⟩ := rasterRow_spec 384 pxB (by omega)
  obtain ⟨hlen, hbb⟩ := rasterRow_spec w px hw
  refine ⟨hlen, ?_, ?_, ?_⟩
  · apply List.ext_getElem?
    intro n
    rcases lt_or_le n 48 with hn | hn
    · rw [getElem?_eq_some_getD (by omega), List.getElem?_replicate, if_pos hn]
      obtain ⟨hvlt, hbit⟩ := hbW n hn
      have hval : (rasterRow 384 pxW).getD n 0 = 0 := by
        apply byte_eq_of_testBit hvlt (by omega)
        intro j hj
        rw [hbit j hj, Nat.zero_testBit]
        have hA : 8 * n + (j - (8 - min 8 (384 - 8 * n))) < 384 := by omega
        rw [decide_eq_false (Nat.not_lt.mpr (hW _ hA)), Bool.and_false]
      rw [hval]
    · rw [List.getElem?_eq_none (by omega), List.getElem?_eq_none (by simp; omega)]
  · apply List.ext_getElem?
    intro n
    rcases lt_or_le n 48 with hn | hn
    · rw [getElem?_eq_some_getD (by omega), List.getElem?_replicate, if_pos hn]
      obtain ⟨hvlt, hbit⟩ := hbB n hn
      have hval : (rasterRow 384 pxB).getD n 0 = 255 := by
        apply byte_eq_of_testBit hvlt (by omega)
        intro j hj
        rw [hbit j hj,
          show (255 : Nat) = 2 ^ 8 - 1 by norm_num, Nat.testBit_two_pow_sub_one,
          decide_eq_true hj,
          decide_eq_true (show 8 - min 8 (384 - 8 * n) ≤ j by omega),
          Bool.true_and]
        have hA : 8 * n + (j - (8 - min 8 (384 - 8 * n))) < 384 := by omega
        rw [decide_eq_true (hB _ hA)]
      rw [hval]
    · rw [List.getElem?_eq_none (by omega), List.getElem?_eq_none (by simp; omega)]
  · intro b hblt hwb
    obtain ⟨hvlt, hbit⟩ := hbb b hblt
    apply byte_eq_of_testBit hvlt (by omega)
    intro j hj
    rw [hbit j hj, Nat.zero_testBit,
      decide_eq_false (show ¬ (8 - min 8 (w - 8 * b) ≤ j) by omega),
      Bool.false_and]

/-- Witness for C8 at width 10 and the constant white / black rows. -/
theorem rasterRow_extremes_witness :
    (rasterRow 10 (fun _ => 0)).length = 48 ∧
    rasterRow 384 (fun _ => 255) = List.replicate 48 0 ∧
    rasterRow 384 (fun _ => 0) = List.replicate 48 255 := by
  have h := rasterRow_extremes 10 (fun _ => 0) (fun _ => 255) (fun _ => 0)
    (by omega) (fun i _ => by norm_num) (fun i _ => by norm_num)
  exact ⟨h.1, h.2.1, h.2.2.1⟩

end Miniprint
